import Mathlib

/-!
Shallow embedding of the scraperdelphi aggregation pipeline.

The definitions below are translated from src/server.backup.js (the
provider-fallback aggregation pipeline: CFBD primary, ESPN secondary,
HTML tertiary stub) and from src/server.js (the validated CFBD-only
query service). JavaScript numbers are modelled as rationals, nullable
values as Option, and a thrown provider error as the error branch of
an Except value.
-/

namespace Scraperdelphi

/-- The market pair of a canonical event: `{ spread, total }` as built by
`normalize` in src/server.backup.js (both default to 0 when absent). -/
structure Market where
  spread : ℚ
  total : ℚ
deriving Repr, DecidableEq

/-- One canonical game as produced by `normalize` in src/server.backup.js
(lines 21-36): identity fields, kickoff, the market pair, and the
teamForm / annotation extension fields. -/
structure Game where
  id : String
  home : String
  away : String
  kickoff : String
  market : Market
  teamForm : List (String × String)
  notes : List String
deriving Repr, DecidableEq

/-- The normalized payload `{ league, week, pulledAt, games }` returned by
`normalize` and sent as the /scrape response body on success. -/
structure Normalized where
  league : String
  week : ℕ
  pulledAt : String
  games : List Game
deriving Repr, DecidableEq

/-- Lookup in a JavaScript `Map` built with `new Map(entries)`: on duplicate
keys the last inserted entry wins, and a missing key yields `undefined`,
modelled as `none`. -/
def jsMapGet {α : Type} (entries : List (String × α)) (k : String) : Option α :=
  entries.reverse.lookup k

/-- The cross-provider match key, as computed at src/server.backup.js lines
72, 82, 149 and 152: the template string with separator `__` passed through
`toLowerCase()`. -/
def matchKey (home away : String) : String :=
  (home ++ "__" ++ away).toLower

/-- One book line from the CFBD lines endpoint, restricted to the fields
`pickConsensusLine` reads: `spread`, the legacy `formula` fallback, and
`overUnder`. A `none` field models a null/absent JSON value. -/
structure RawLine where
  spread : Option ℚ
  formula : Option ℚ
  overUnder : Option ℚ
deriving Repr, DecidableEq

/-- `pickConsensusLine` (src/server.backup.js lines 54-64): walk the lines in
source order; the effective spread of a line is `l.spread ?? l.formula ??
null`, the effective total is `l.overUnder ?? null`; return the first line
where either is non-null, coercing nulls to 0; return zeros when no line
qualifies. -/
def pickConsensusLine : List RawLine → Market
  | [] => { spread := 0, total := 0 }
  | l :: rest =>
    let spread := l.spread.orElse fun _ => l.formula
    let total := l.overUnder
    if spread.isSome ∨ total.isSome then
      { spread := spread.getD 0, total := total.getD 0 }
    else
      pickConsensusLine rest

/-- The consensus picker as the claim words it: the first entry with a
non-null `spread` or a non-null `overUnder` (the legacy `formula` field is
not consulted), nulls coerced to 0, and zeros when no entry qualifies.
Written from the spec sentence, for comparison with `pickConsensusLine`. -/
def pickConsensusLineClaimed : List RawLine → Market
  | [] => { spread := 0, total := 0 }
  | l :: rest =>
    if l.spread.isSome ∨ l.overUnder.isSome then
      { spread := l.spread.getD 0, total := l.overUnder.getD 0 }
    else
      pickConsensusLineClaimed rest

/-- The effective spread of a book line: `l.spread ?? l.formula ?? null`
(src/server.backup.js line 57). -/
def lineSpread (l : RawLine) : Option ℚ :=
  l.spread.orElse fun _ => l.formula

/-- The merge step of the fallback fill (src/server.backup.js lines 150-156)
with the looked-up secondary market abstracted as the candidate `m`: the
whole market pair is replaced exactly when the current spread and total are
both JS-falsy, i.e. zero. -/
def mergeCandidate (g : Game) (m : Market) : Game :=
  if g.market.spread = 0 ∧ g.market.total = 0 then { g with market := m } else g

/-- One game passing through the ESPN fallback fill (src/server.backup.js
lines 150-156), given the index of secondary markets keyed by `matchKey`. -/
def fillFromEspn (idx : List (String × Market)) (g : Game) : Game :=
  if g.market.spread = 0 ∧ g.market.total = 0 then
    match jsMapGet idx (matchKey g.home g.away) with
    | some m => { g with market := m }
    | none => g
  else g

/-- The index built at src/server.backup.js line 149: ESPN games keyed by
`matchKey`, values being their market pairs. -/
def espnIndex (espnGames : List Game) : List (String × Market) :=
  espnGames.map fun g => (matchKey g.home g.away, g.market)

/-- The fallback-fill step (src/server.backup.js lines 149-156): map the
fill over the canonical games. -/
def fallbackFill (espnGames : List Game) (games : List Game) : List Game :=
  games.map (fillFromEspn (espnIndex espnGames))

/-- The flat row shape handed to the HTML filler (src/server.backup.js lines
160-167); spread and total are optional because the final merge guards them
with `??`. -/
structure HtmlRow where
  id : String
  home : String
  away : String
  kickoff : String
  spread : Option ℚ
  total : Option ℚ
deriving Repr, DecidableEq

/-- Projection of a canonical game to the HTML-filler row shape
(src/server.backup.js lines 160-167). -/
def toHtmlRow (g : Game) : HtmlRow :=
  { id := g.id, home := g.home, away := g.away, kickoff := g.kickoff,
    spread := some g.market.spread, total := some g.market.total }

/-- `fillLinesWithHtml` (src/server.backup.js lines 131-136): the HTML
provider stub, a no-op returning the rows unchanged. -/
def fillLinesWithHtml (rows : List HtmlRow) (week : ℕ) : List HtmlRow :=
  rows

/-- The per-game body of the tertiary fill (src/server.backup.js lines
171-174): look the game up by id in the row index and rebuild its market
with `??` fallbacks to the current values. -/
def tertiaryStep (rowIdx : List (String × HtmlRow)) (g : Game) : Game :=
  match jsMapGet rowIdx g.id with
  | some m =>
    { g with market := { spread := m.spread.getD g.market.spread,
                         total := m.total.getD g.market.total } }
  | none => g

/-- The tertiary fill step (src/server.backup.js lines 158-174): project the
games to rows, pass them through `fillLinesWithHtml`, index the rows by id,
and map `tertiaryStep` over the games. -/
def tertiaryFill (games : List Game) (week : ℕ) : List Game :=
  let rows := fillLinesWithHtml (games.map toHtmlRow) week
  let rowIdx := rows.map fun r => (r.id, r)
  games.map (tertiaryStep rowIdx)

/-- The /scrape response of src/server.backup.js: either a JSON body of
normalized data or a status plus stable error code (the error body carries
no games array). -/
inductive ScrapeResponse where
  | json (body : Normalized)
  | errorJson (status : ℕ) (code : String)
deriving Repr, DecidableEq

/-- The successful try-block transform (src/server.backup.js lines 147-174):
the ESPN fallback fill followed by the HTML tertiary fill, leaving the other
payload fields untouched. -/
def applyFills (week : ℕ) (espn data : Normalized) : Normalized :=
  { data with games := tertiaryFill (fallbackFill espn.games data.games) week }

/-- The catch block (src/server.backup.js lines 177-186): try ESPN alone and
answer its normalized output; if that also fails, answer
`502 { error: "scrape_failed" }`. -/
def espnOnlyFallback (espn : Except String Normalized) : ScrapeResponse :=
  match espn with
  | .ok d => .json d
  | .error _ => .errorJson 502 "scrape_failed"

/-- GET /scrape of src/server.backup.js (lines 139-187). The two adapters are
modelled as deterministic request-scoped outcomes, so the fetchViaEspn call
at line 148 (inside the try block) and the one at line 180 (inside the catch
block) see the same result. A throw from either call inside the try block
transfers control to the catch block. -/
def scrapeHandler (week : ℕ) (cfbd espn : Except String Normalized) :
    ScrapeResponse :=
  match cfbd with
  | .error _ => espnOnlyFallback espn
  | .ok data =>
    match espn with
    | .error _ => espnOnlyFallback espn
    | .ok e => .json (applyFills week e data)

/-- The query parameters of GET /scrape in src/server.js; `none` models an
absent parameter. -/
structure ScrapeQuery where
  league : Option String
  week : Option String
  year : Option String
deriving Repr, DecidableEq

/-- What the src/server.js handler does before any network traffic: either it
returns early with a status and error code, or it issues the CFBD fetch for
the given URL. -/
inductive QueryOutcome where
  | reject (status : ℕ) (code : String)
  | fetchCfbd (url : String)
deriving Repr, DecidableEq

/-- GET /scrape of src/server.js (lines 30-46), modelled up to the point
where the CFBD request is issued: league is defaulted to the empty string
and lower-cased, year defaults to "2025", week defaults to the empty string;
validation rejects run before the key check and the fetch. -/
def handleScrape (q : ScrapeQuery) (cfbdKey : String) : QueryOutcome :=
  let league := (q.league.getD "").toLower
  let year := q.year.getD "2025"
  let week := q.week.getD ""
  if league = "" then .reject 400 "missing_league"
  else if league ≠ "ncaaf" then .reject 400 "unsupported_league"
  else if week = "" then .reject 400 "missing_week"
  else if cfbdKey.trim = "" then .reject 500 "missing_cfbd_key"
  else .fetchCfbd ("https://api.collegefootballdata.com/games?year=" ++ year ++
    "&week=" ++ week ++ "&seasonType=regular")

/-- Identity of a canonical event: every field except the market pair. -/
def sameIdentity (a b : Game) : Prop :=
  a.id = b.id ∧ a.home = b.home ∧ a.away = b.away ∧ a.kickoff = b.kickoff ∧
    a.teamForm = b.teamForm ∧ a.notes = b.notes

/-- A canonical game with an all-zero market, as the primary builds one when
it found no odds. -/
def gZero : Game :=
  { id := "ncaaf-texas-iowa-state", home := "Texas", away := "Iowa State",
    kickoff := "2025-09-06T19:00:00Z", market := { spread := 0, total := 0 },
    teamForm := [], notes := [] }

/-- A canonical game whose market was already set by the primary
(spread 3.5). -/
def gPrimary : Game :=
  { id := "ncaaf-penn-state-illinois", home := "Penn State", away := "Illinois",
    kickoff := "2025-09-06T16:30:00Z", market := { spread := 7/2, total := 0 },
    teamForm := [], notes := [] }

/-- A secondary market candidate (spread 7). -/
def mSecondary : Market :=
  { spread := 7, total := 55 }

/-- A normalized primary payload with one zero-market game. -/
def cfbdOkData : Normalized :=
  { league := "ncaaf", week := 1, pulledAt := "2025-09-06T12:00:00Z",
    games := [gZero] }

/-- A book line whose only non-null field is the legacy `formula` one. -/
def formulaOnlyLine : RawLine :=
  { spread := none, formula := some 7, overUnder := none }

/-! ## Helper lemmas -/

theorem sameIdentity_refl (g : Game) : sameIdentity g g :=
  ⟨rfl, rfl, rfl, rfl, rfl, rfl⟩

theorem mergeCandidate_sameIdentity (g : Game) (m : Market) :
    sameIdentity (mergeCandidate g m) g := by
  unfold mergeCandidate
  split
  · exact ⟨rfl, rfl, rfl, rfl, rfl, rfl⟩
  · exact sameIdentity_refl g

theorem fillFromEspn_sameIdentity (idx : List (String × Market)) (g : Game) :
    sameIdentity (fillFromEspn idx g) g := by
  unfold fillFromEspn
  split
  · cases hj : jsMapGet idx (matchKey g.home g.away) <;> simp [hj, sameIdentity]
  · exact sameIdentity_refl g

theorem tertiaryStep_sameIdentity (rowIdx : List (String × HtmlRow)) (g : Game) :
    sameIdentity (tertiaryStep rowIdx g) g := by
  unfold tertiaryStep
  cases hj : jsMapGet rowIdx g.id <;> simp [hj, sameIdentity]

theorem forall₂_sameIdentity_map {f : Game → Game}
    (hf : ∀ g, sameIdentity (f g) g) :
    ∀ l : List Game, List.Forall₂ sameIdentity (l.map f) l
  | [] => List.Forall₂.nil
  | g :: gs => List.Forall₂.cons (hf g) (forall₂_sameIdentity_map hf gs)

theorem tertiaryFill_sameIdentity (games : List Game) (week : ℕ) :
    List.Forall₂ sameIdentity (tertiaryFill games week) games := by
  simp only [tertiaryFill]
  exact forall₂_sameIdentity_map (tertiaryStep_sameIdentity _) games

theorem map_id_of_frame {f : Game → Game} (hf : ∀ g, (f g).id = g.id) :
    ∀ l : List Game, (l.map f).map (fun g => g.id) = l.map fun g => g.id
  | [] => rfl
  | g :: gs => by simp only [List.map_cons, hf g, map_id_of_frame hf gs]

/-! ## Claim theorems -/

/-- C1: merge fill policy — merging a secondary candidate into a canonical
event replaces the event market by the candidate market as an atomic pair
exactly when the current spread and total are both zero; when either is
non-zero, the primary market is retained unchanged. -/
theorem mergeCandidate_fill_policy (g : Game) (m : Market) :
    (g.market.spread = 0 ∧ g.market.total = 0 →
      mergeCandidate g m = { g with market := m }) ∧
    (g.market.spread ≠ 0 ∨ g.market.total ≠ 0 → mergeCandidate g m = g) := by
  refine ⟨fun h => ?_, fun h => ?_⟩
  · simp [mergeCandidate, h]
  · have hn : ¬(g.market.spread = 0 ∧ g.market.total = 0) := by tauto
    simp [mergeCandidate, hn]

/-- C1 witness: at concrete inputs, a zero-market game is filled with the
secondary market, and a game whose primary market has spread 3.5 keeps it
against a secondary candidate with spread 7. -/
theorem mergeCandidate_fill_policy_witness :
    mergeCandidate gZero mSecondary = { gZero with market := mSecondary } ∧
      mergeCandidate gPrimary mSecondary = gPrimary :=
  ⟨(mergeCandidate_fill_policy gZero mSecondary).1 ⟨rfl, rfl⟩,
   (mergeCandidate_fill_policy gPrimary mSecondary).2
     (Or.inl (by simp only [gPrimary]; norm_num))⟩

/-- C2: the claim says a secondary (ESPN) failure during fallback-fill is
non-fatal and the primary events are still returned; the code instead lets
the throw escape to the catch block shared with the primary failure path,
so the primary result is discarded and, the secondary failing again there,
the request answers 502 scrape_failed. Evaluated at the failing input. -/
theorem scrapeHandler_secondary_failure_aborts :
    scrapeHandler 1 (Except.ok cfbdOkData) (Except.error "ESPN 500") =
      ScrapeResponse.errorJson 502 "scrape_failed" := rfl

/-- C3 counterexample: the match key lower-cases but never collapses
whitespace, so the two derivations the claim equates differ. -/
theorem matchKey_whitespace_sensitive :
    matchKey "Penn State" "Illinois" ≠ matchKey "penn state" "  ILLINOIS " := by
  simp only [matchKey, String.toLower, String.map_eq]
  decide

/-- C3 amended: the match key is a deterministic pure function of the two
team names and is case-insensitive — any two pairs of names that agree up to
letter case derive the same key — but whitespace is preserved verbatim. -/
theorem matchKey_case_insensitive (h h' a a' : String)
    (hh : h.toLower = h'.toLower) (ha : a.toLower = a'.toLower) :
    matchKey h a = matchKey h' a' := by
  have hh2 : h.data.map Char.toLower = h'.data.map Char.toLower := by
    have := congrArg String.data hh
    simpa [String.toLower, String.map_eq] using this
  have ha2 : a.data.map Char.toLower = a'.data.map Char.toLower := by
    have := congrArg String.data ha
    simpa [String.toLower, String.map_eq] using this
  simp only [matchKey, String.toLower, String.map_eq, String.data_append,
    List.map_append, hh2, ha2]

/-- C3 witness: the amended case-insensitivity at concrete team names. -/
theorem matchKey_case_insensitive_witness :
    matchKey "Penn State" "Illinois" = matchKey "PENN STATE" "illinois" :=
  matchKey_case_insensitive "Penn State" "PENN STATE" "Illinois" "illinois"
    (by simp only [String.toLower, String.map_eq]; decide)
    (by simp only [String.toLower, String.map_eq]; decide)

/-- C4: when the primary adapter fails, the handler answers with the
secondary adapter normalized output directly, with no fallback-fill or
tertiary-fill applied to it. -/
theorem scrapeHandler_primary_failure_degrades
    (week : ℕ) (e : String) (d : Normalized) :
    scrapeHandler week (Except.error e) (Except.ok d) =
      ScrapeResponse.json d := rfl

/-- C5: when both adapters fail, the handler answers 502 with the stable
error code scrape_failed, and the response is never a JSON games payload. -/
theorem scrapeHandler_total_failure (week : ℕ) (e1 e2 : String) :
    scrapeHandler week (Except.error e1) (Except.error e2) =
        ScrapeResponse.errorJson 502 "scrape_failed" ∧
      ∀ d : Normalized,
        scrapeHandler week (Except.error e1) (Except.error e2) ≠
          ScrapeResponse.json d :=
  ⟨rfl, fun _ h => ScrapeResponse.noConfusion h⟩

/-- C6: merge is idempotent — applying the merge of the same candidate twice
yields the same canonical event as applying it once. -/
theorem mergeCandidate_idempotent (g : Game) (m : Market) :
    mergeCandidate (mergeCandidate g m) m = mergeCandidate g m := by
  unfold mergeCandidate
  by_cases h : g.market.spread = 0 ∧ g.market.total = 0
  · simp only [if_pos h]
    by_cases hm : m.spread = 0 ∧ m.total = 0
    · simp [hm]
    · simp [hm]
  · simp [if_neg h, h]

/-- C7: the fill steps change at most the market field — the merge step, the
ESPN fallback fill of one game, and the tertiary fill all preserve id, home,
away, kickoff, teamForm and notes. -/
theorem fill_steps_frame (g : Game) (m : Market) (idx : List (String × Market))
    (games : List Game) (week : ℕ) :
    sameIdentity (mergeCandidate g m) g ∧ sameIdentity (fillFromEspn idx g) g ∧
      List.Forall₂ sameIdentity (tertiaryFill games week) games :=
  ⟨mergeCandidate_sameIdentity g m, fillFromEspn_sameIdentity idx g,
    tertiaryFill_sameIdentity games week⟩

/-- C8 counterexample: a book line whose only non-null field is the legacy
formula one is selected by the code (its formula becoming the spread), while
under the claim wording no entry qualifies and the result would be zeros. -/
theorem pickConsensusLine_formula_divergence :
    pickConsensusLine [formulaOnlyLine] = { spread := 7, total := 0 } ∧
      pickConsensusLineClaimed [formulaOnlyLine] = { spread := 0, total := 0 } ∧
      pickConsensusLine [formulaOnlyLine] ≠
        pickConsensusLineClaimed [formulaOnlyLine] :=
  ⟨rfl, rfl, by decide⟩

/-- C8 amended: odds selection is first-wins over the effective fields — the
consensus line is the first entry whose effective spread (spread, falling
back to the legacy formula field) or total is non-null, taken as a pair with
nulls coerced to 0; ties are resolved by source order and the result is all
zeros when no entry qualifies. -/
theorem pickConsensusLine_first_wins (ls : List RawLine) :
    pickConsensusLine ls =
      match ls.find? fun l => (lineSpread l).isSome || l.overUnder.isSome with
      | some l => { spread := (lineSpread l).getD 0, total := l.overUnder.getD 0 }
      | none => { spread := 0, total := 0 } := by
  induction ls with
  | nil => rfl
  | cons l rest ih =>
    by_cases h : (l.spread.orElse fun _ => l.formula).isSome ∨ l.overUnder.isSome
    · have hb : ((lineSpread l).isSome || l.overUnder.isSome) = true := by
        rcases h with h | h <;> simp [lineSpread, h]
      simp only [pickConsensusLine, List.find?_cons, lineSpread] at *
      rw [if_pos h, hb]
    · have hb : ((lineSpread l).isSome || l.overUnder.isSome) = false := by
        simp only [not_or, Bool.not_eq_true] at h
        simp [lineSpread, h.1, h.2]
      simp only [pickConsensusLine, List.find?_cons, lineSpread] at *
      rw [if_neg h, hb, ih]

/-- C9: request validation precedes the network call — with a supported
league and week missing, the handler rejects 400 missing_week; with a
non-empty unsupported league, it rejects 400 unsupported_league; in both
cases the outcome is a reject, never a fetch. -/
theorem handleScrape_validation_precedes_fetch (q : ScrapeQuery) (key : String) :
    ((q.league.getD "").toLower = "ncaaf" → q.week.getD "" = "" →
        handleScrape q key = QueryOutcome.reject 400 "missing_week") ∧
    ((q.league.getD "").toLower ≠ "" → (q.league.getD "").toLower ≠ "ncaaf" →
        handleScrape q key = QueryOutcome.reject 400 "unsupported_league") := by
  constructor
  · intro hl hw
    have h1 : ¬((q.league.getD "").toLower = "") := by rw [hl]; decide
    have h2 : ¬((q.league.getD "").toLower ≠ "ncaaf") := fun hne => hne hl
    simp only [handleScrape]
    rw [if_neg h1, if_neg h2, if_pos hw]
  · intro h1 h2
    simp only [handleScrape]
    rw [if_neg h1, if_pos h2]

/-- C9 witness: concrete requests — league ncaaf with week omitted rejects
missing_week; league NFL rejects unsupported_league. -/
theorem handleScrape_validation_witness :
    handleScrape ⟨some "ncaaf", none, none⟩ "k" =
        QueryOutcome.reject 400 "missing_week" ∧
      handleScrape ⟨some "NFL", some "2", none⟩ "k" =
        QueryOutcome.reject 400 "unsupported_league" :=
  ⟨(handleScrape_validation_precedes_fetch ⟨some "ncaaf", none, none⟩ "k").1
      (by simp only [String.toLower, String.map_eq]; decide) rfl,
   (handleScrape_validation_precedes_fetch ⟨some "NFL", some "2", none⟩ "k").2
      (by simp only [String.toLower, String.map_eq]; decide)
      (by simp only [String.toLower, String.map_eq]; decide)⟩

/-- C10: the fallback-fill and tertiary-fill steps preserve the event set —
after both fills the games list has exactly the ids of the primary list, in
the same order, and the same length. -/
theorem applyFills_preserves_event_set (week : ℕ) (espn data : Normalized) :
    (applyFills week espn data).games.map (fun g => g.id) =
        data.games.map (fun g => g.id) ∧
      (applyFills week espn data).games.length = data.games.length := by
  have hfall : ((fallbackFill espn.games data.games).map fun g => g.id) =
      data.games.map fun g => g.id := by
    simp only [fallbackFill]
    exact map_id_of_frame (fun g => (fillFromEspn_sameIdentity _ g).1) data.games
  have htert :
      ((tertiaryFill (fallbackFill espn.games data.games) week).map fun g => g.id) =
        (fallbackFill espn.games data.games).map fun g => g.id := by
    simp only [tertiaryFill]
    exact map_id_of_frame (fun g => (tertiaryStep_sameIdentity _ g).1) _
  have hids : ((applyFills week espn data).games.map fun g => g.id) =
      data.games.map fun g => g.id := by
    simp only [applyFills]
    exact htert.trans hfall
  refine ⟨hids, ?_⟩
  have hlen := congrArg List.length hids
  simpa using hlen

end Scraperdelphi
